import Mathlib

/-!
Verification of the mass-dispatch engine of the Enviador backend.

The development shallowly embeds the Python source:
* `api/services/email_service.py` — `EmailService` (SMTP batch loop, retry and
  quota classification, `_normalize`, attachment map and match modes,
  placeholder templating, the static `EmailService.send` wrapper);
* `apps/emails/services.py` — `EmailSendService` (per-recipient retry engine
  with rate-limit / daily-limit detection and linear capped backoff, and its
  mass-send loop);
* `api/services/job_manager.py` — the in-memory job store and job runner.

Strings are modelled as `List Char` (`Str`); machine I/O, real time and the
SMTP socket are abstracted into outcome-valued parameters, faithfully keeping
the control flow of the source.  Timestamps (`created_at`/`updated_at`) are
omitted from the job model.
-/

/-- Strings are modelled as lists of characters. -/
abbrev Str := List Char

/-- Turn a Lean string literal into the `Str` model. -/
def str (s : String) : Str := s.data

/-- `strStarts pat s` is true when `pat` is an initial run of `s`
(Python `s.startswith(pat)`). -/
def strStarts : Str → Str → Bool
  | [], _ => true
  | _ :: _, [] => false
  | p :: ps, c :: cs => p == c && strStarts ps cs

/-- `strContains pat s` is Python's `pat in s`: `pat` occurs contiguously in `s`. -/
def strContains (pat : Str) : Str → Bool
  | [] => pat.isEmpty
  | c :: t => strStarts pat (c :: t) || strContains pat t

/-- `strEnds pat s` is Python's `s.endswith(pat)`. -/
def strEnds (pat s : Str) : Bool := strStarts pat.reverse s.reverse

/-- Fuel-driven worker for `replaceAll`; the fuel is an upper bound on the
length of the remaining input, so the `0, s => s` branch is never reached by
`replaceAll` itself. -/
def replaceAllFuel (pat rep : Str) : Nat → Str → Str
  | 0, s => s
  | _ + 1, [] => []
  | fuel + 1, c :: t =>
    if pat ≠ [] ∧ strStarts pat (c :: t) then
      rep ++ replaceAllFuel pat rep fuel (List.drop (pat.length - 1) t)
    else
      c :: replaceAllFuel pat rep fuel t

/-- Python `s.replace(pat, rep)`: replace every non-overlapping occurrence of
`pat` in `s` left to right.  (The sources only call it with non-empty `pat`.) -/
def replaceAll (pat rep s : Str) : Str := replaceAllFuel pat rep s.length s

/-- The whitespace class stripped by Python `str.strip()` (ASCII range). -/
def pySpace (c : Char) : Bool :=
  c == ' ' || c == '\t' || c == '\n' || c == '\x0d' || c == '\x0b' || c == '\x0c'

/-- Drop matching characters from the front (one side of Python `strip`). -/
def dropLeading (p : Char → Bool) (s : Str) : Str := s.dropWhile p

/-- Drop matching characters from the back (the other side of Python `strip`). -/
def dropTrailing (p : Char → Bool) (s : Str) : Str := (s.reverse.dropWhile p).reverse

/-- Python `s.strip()` (no argument): strip whitespace from both ends. -/
def pyStrip (s : Str) : Str := dropTrailing pySpace (dropLeading pySpace s)

/-- The two quote characters of `s.strip('"\'')` in `_normalize`. -/
def quoteChar (c : Char) : Bool := c == Char.ofNat 34 || c == Char.ofNat 39

/-- The leading-glyph class of `_normalize`'s regex `^[\s\-→>»•]+`. -/
def leadGlyph (c : Char) : Bool :=
  pySpace c || c == '-' || c == '→' || c == '>' || c == '»' || c == '•'

/-- ASCII lowercasing, one character of Python `str.lower()`. -/
def lowerChar (c : Char) : Char :=
  if 65 ≤ c.toNat ∧ c.toNat ≤ 90 then Char.ofNat (c.toNat + 32) else c

/-- The fixed extension set of `_normalize`'s tail regex
`\.(jpg|jpeg|png|gif|pdf|docx|doc|xlsx|xls|zip|txt)$`. -/
def knownExts : List Str :=
  [str "jpg", str "jpeg", str "png", str "gif", str "pdf", str "docx",
   str "doc", str "xlsx", str "xls", str "zip", str "txt"]

/-- Remove one known extension (with its dot) from the tail, as the anchored
regex substitution in `_normalize` does. -/
def stripExt (s : Str) : Str :=
  match knownExts.find? (fun e => strEnds ('.' :: e) s) with
  | some e => s.take (s.length - (e.length + 1))
  | none => s

/-- `_normalize` of `EmailService.send` (email_service.py lines 267-279):
strip whitespace, drop leading arrow/bullet/dash glyphs, strip surrounding
quotes, strip again, lowercase, and drop one known extension from the tail. -/
def pyNormalize (name : Str) : Str :=
  if name = [] then []
  else
    let s1 := pyStrip name
    let s2 := dropLeading leadGlyph s1
    let s3 := dropTrailing quoteChar (dropLeading quoteChar s2)
    let s4 := pyStrip s3
    stripExt (s4.map lowerChar)

/-- `os.path.basename` for POSIX paths: the part after the last slash. -/
def pyBasename (s : Str) : Str := (s.reverse.takeWhile (fun c => !(c == '/'))).reverse

/-- Index of the last `'.'` in `l`, if any. -/
def lastDotIdx (l : Str) : Option Nat :=
  match l.reverse.findIdx? (fun c => c == '.') with
  | none => none
  | some i => some (l.length - 1 - i)

/-- `os.path.splitext(b)[0]`: cut at the last dot, except that dots leading
the name are part of the name (so `".bashrc"` keeps its dot). -/
def pySplitextBase (b : Str) : Str :=
  let k := (b.takeWhile (fun c => c == '.')).length
  match lastDotIdx (b.drop k) with
  | none => b
  | some i => b.take (k + i)

/-- An uploaded file blob: `{'name': ..., 'content': ...}` with the content
bytes modelled as numbers. -/
structure FileBlob where
  name : Str
  content : List Nat
deriving DecidableEq, Repr

/-- The key under which `EmailService.send` indexes an uploaded file:
`_normalize(os.path.splitext(os.path.basename(fname))[0])`. -/
def normalizeFileName (f : FileBlob) : Str :=
  pyNormalize (pySplitextBase (pyBasename f.name))

/-- Python-dict lookup on an association list. -/
def dictLookup {α : Type} (m : List (Str × α)) (k : Str) : Option α :=
  match m with
  | [] => none
  | (k2, v) :: t => if k2 = k then some v else dictLookup t k

/-- Python-dict assignment `m[k] = v`: update the existing entry in place, or
append a new one (insertion order is preserved). -/
def dictInsert {α : Type} (m : List (Str × α)) (k : Str) (v : α) : List (Str × α) :=
  if m.any (fun e => e.1 = k) then
    m.map (fun e => if e.1 = k then (k, v) else e)
  else
    m ++ [(k, v)]

/-- The `attachments_map_by_name` construction of `EmailService.send`
(lines 281-309): normalize each uploaded file's basename and assign it into
the dict, skipping entries whose normalized name is empty. -/
def buildAttachmentsMap (files : List FileBlob) : List (Str × FileBlob) :=
  files.foldl
    (fun m f =>
      let n := normalizeFileName f
      if n = [] then m else dictInsert m n f)
    []

/-- The four values of the payload's `match_mode`. -/
inductive MatchMode where
  | igual
  | comeca_com
  | termina_com
  | contem
deriving DecidableEq, Repr

/-- `_matches_mode` of `EmailService.send` (lines 314-323). -/
def matchesMode (m : MatchMode) (normRef normFile : Str) : Bool :=
  match m with
  | .igual => normRef == normFile
  | .comeca_com => strStarts normRef normFile
  | .termina_com => strEnds normRef normFile
  | .contem => strContains normRef normFile

/-- The candidate scan of lines 408-413: append every matching candidate and,
for modes other than `contem`, stop at the first match. -/
def collectMatches (m : MatchMode) (normRef : Str) : List (Str × FileBlob) → List FileBlob
  | [] => []
  | (k, b) :: rest =>
    if matchesMode m normRef k then
      if m = .contem then b :: collectMatches m normRef rest else [b]
    else
      collectMatches m normRef rest

/-- Resolution of one raw attachment reference (lines 398-417):
`key = str(ref).strip()`, `norm_ref = _normalize(key)`, then the candidate
scan over the normalized map. -/
def resolveRef (m : MatchMode) (map : List (Str × FileBlob)) (ref : Str) : List FileBlob :=
  collectMatches m (pyNormalize (pyStrip ref)) map

/-- The `'{' + str(col_key) + '}'` placeholder of lines 368. -/
def placeholder (k : Str) : Str := (Char.ofNat 123 :: k) ++ [Char.ofNat 125]

/-- The placeholder substitution of `EmailService.send` (lines 363-374): for
each row column in order, if `{k}` occurs in the accumulated text, replace
every occurrence with the column value. -/
def pyRender (template : Str) (row : List (Str × Str)) : Str :=
  row.foldl
    (fun acc kv =>
      let ph := placeholder kv.1
      if strContains ph acc then replaceAll ph kv.2 acc else acc)
    template

/-! ## EmailSendService (apps/emails/services.py): retry engine and mass loop -/

/-- Outcome of one raw SMTP delivery attempt, as discriminated by the
`except` clauses of `EmailSendService.send_email` (lines 191-255). -/
inductive SmtpAttempt where
  | ok
  | disconnected
  | smtpExc (msg : Str)
  | otherExc (msg : Str)
deriving DecidableEq, Repr

/-- `GMAIL_RATE_LIMIT_CODES = ['4.2.1', '4.7.0']` membership test
(`_detect_rate_limit`). -/
def detectRateLimit (msg : Str) : Bool :=
  strContains (str "4.2.1") msg || strContains (str "4.7.0") msg

/-- `GMAIL_DAILY_LIMIT_CODES = ['5.4.5', '4.5.4']` membership test
(`_detect_daily_limit`). -/
def detectDailyLimit (msg : Str) : Bool :=
  strContains (str "5.4.5") msg || strContains (str "4.5.4") msg

/-- `MAX_RETRIES` of `EmailSendService`. -/
def MAX_RETRIES : Nat := 5

/-- `RETRY_DELAY` (seconds slept on a detected rate limit). -/
def RETRY_DELAY : Nat := 100

/-- The per-recipient result dict of `EmailSendService.send_email`. -/
structure SendAttemptResult where
  recipient : Str
  success : Bool
  attempts : Nat
  error : Option Str
deriving DecidableEq, Repr

/-- A send result together with the backoff sleeps performed, in order. -/
structure SendTrace where
  result : SendAttemptResult
  sleeps : List Nat
deriving DecidableEq, Repr

/-- The message built after the `while` loop exhausts
(`"Falha após 5 tentativas"`, extended with the last error if any). -/
def exhaustedMsg : Option Str → Str
  | none => str "Falha após 5 tentativas"
  | some e => str "Falha após 5 tentativas: " ++ e

/-- The `while attempt < MAX_RETRIES` loop of `EmailSendService.send_email`:
`attempt` counts finished attempts, the fuel is `MAX_RETRIES - attempt`.
`behavior a` is the transport outcome of attempt number `a`. -/
def sendEmailAux (behavior : Nat → SmtpAttempt) (recipient : Str) :
    Nat → Nat → Option Str → List Nat → SendTrace
  | attempt, 0, lastError, sleeps =>
    ⟨⟨recipient, false, attempt, some (exhaustedMsg lastError)⟩, sleeps⟩
  | attempt, rem + 1, _, sleeps =>
    match behavior (attempt + 1) with
    | .ok => ⟨⟨recipient, true, attempt + 1, none⟩, sleeps⟩
    | .disconnected =>
      sendEmailAux behavior recipient (attempt + 1) rem
        (some (str "Conexão SMTP perdida, tentando reconectar..."))
        (if attempt + 1 < MAX_RETRIES then sleeps ++ [5] else sleeps)
    | .smtpExc msg =>
      if detectRateLimit msg then
        if attempt + 1 < MAX_RETRIES then
          sendEmailAux behavior recipient (attempt + 1) rem (some msg) (sleeps ++ [RETRY_DELAY])
        else
          ⟨⟨recipient, false, attempt + 1,
            some (str "Rate limit excedido após 5 tentativas")⟩, sleeps⟩
      else if detectDailyLimit msg then
        ⟨⟨recipient, false, attempt + 1,
          some (str "Limite diário de envios Gmail excedido")⟩, sleeps⟩
      else
        if attempt + 1 < MAX_RETRIES then
          sendEmailAux behavior recipient (attempt + 1) rem (some msg)
            (sleeps ++ [Nat.min (5 * (attempt + 1)) 30])
        else
          ⟨⟨recipient, false, attempt + 1,
            some (str "Falha após 5 tentativas: " ++ msg)⟩, sleeps⟩
    | .otherExc msg =>
      sendEmailAux behavior recipient (attempt + 1) rem (some msg)
        (if attempt + 1 < MAX_RETRIES then sleeps ++ [5] else sleeps)

/-- `EmailSendService.send_email`: at most `MAX_RETRIES` delivery attempts,
always returning a structured result dict (the function never raises). -/
def sendEmail (behavior : Nat → SmtpAttempt) (recipient : Str) : SendTrace :=
  sendEmailAux behavior recipient 0 MAX_RETRIES none []

/-- The statistics dict returned by `EmailSendService.send_mass_emails`. -/
structure MassResult where
  total : Nat
  success : Nat
  failed : Nat
  canceled : Bool
  results : List SendAttemptResult
  connectError : Option Str
deriving DecidableEq, Repr

/-- The `for current, recipient in enumerate(recipients, 1)` loop of
`EmailSendService.send_mass_emails` (lines 323-358): check the cancel flag,
send, record the result, bump one of the two counters, continue.
`transport i` is the attempt behavior for recipient number `i` (1-based). -/
def massLoop (transport : Nat → Nat → SmtpAttempt) (cancel : Nat → Bool) (total : Nat) :
    List Str → Nat → Nat → Nat → List SendAttemptResult → MassResult
  | [], _, sc, fc, rs => ⟨total, sc, fc, false, rs, none⟩
  | r :: rest, cur, sc, fc, rs =>
    if cancel cur then ⟨total, sc, fc, true, rs, none⟩
    else
      let t := sendEmail (transport cur) r
      if t.result.success then
        massLoop transport cancel total rest (cur + 1) (sc + 1) fc (rs ++ [t.result])
      else
        massLoop transport cancel total rest (cur + 1) sc (fc + 1) (rs ++ [t.result])

/-- `EmailSendService.send_mass_emails`: raises `ValueError` on an empty
recipient list (modelled as `.error`), returns an all-failed dict when the
initial `_connect` fails with `connect = some e`, and otherwise runs the
sequential loop. -/
def sendMassEmails (connect : Option Str) (transport : Nat → Nat → SmtpAttempt)
    (cancel : Nat → Bool) (recipients : List Str) : Except Str MassResult :=
  if recipients = [] then .error (str "Lista de destinatários vazia")
  else
    match connect with
    | some e => .ok ⟨recipients.length, 0, recipients.length, false, [], some e⟩
    | none => .ok (massLoop transport cancel recipients.length recipients 1 0 0 [])

/-! ## EmailService (api/services/email_service.py): batch loop and wrapper -/

/-- Outcome of one `smtp_server.send_message` call inside
`EmailService.send_email`: success, an `SMTPAuthenticationError`, or any
other exception carrying a message. -/
inductive ApiSendOutcome where
  | ok
  | authError
  | exc (msg : Str)
deriving DecidableEq, Repr

/-- What one recipient's `for j in range(attempt_limit)` retry loop in
`EmailService.send_mass_emails` (lines 114-145) ends in:
* `success a` — sent at attempt `a` (counted as a success);
* `exhaustedRate` — five straight rate-limit signatures: the loop falls
  through with no count and no progress event;
* `abortDaily a` — the daily-limit signature at attempt `a`: re-raised,
  aborting the batch;
* `abortOther a inner` — any other failure at attempt `a` (including the
  `ValueError` from an authentication error inside `send_email`): counted as
  this recipient's failure, reported, then re-raised, aborting the batch.
`inner` is `str(e)` of the exception the loop caught. -/
inductive RecipOutcome where
  | success (attemptsUsed : Nat)
  | exhaustedRate
  | abortDaily (attemptsUsed : Nat)
  | abortOther (attemptsUsed : Nat) (inner : Str)
deriving DecidableEq, Repr

/-- One recipient's retry loop: classify each attempt's exception by the
substring tests of `EmailService.send_email` (lines 190-196: `"4.2.1"` →
`RateLimitExceeded`, retried after a sleep; `"5.4.5"` → `DailyLimitExceeded`,
re-raised; anything else wrapped as `"An error occurred: ..."`). -/
def apiTryAux (behavior : Nat → ApiSendOutcome) : Nat → Nat → RecipOutcome
  | _, 0 => .exhaustedRate
  | attempt, rem + 1 =>
    match behavior (attempt + 1) with
    | .ok => .success (attempt + 1)
    | .authError =>
      .abortOther (attempt + 1) (str "Authentication error! Check the email and app password.")
    | .exc msg =>
      if strContains (str "4.2.1") msg then apiTryAux behavior (attempt + 1) rem
      else if strContains (str "5.4.5") msg then .abortDaily (attempt + 1)
      else .abortOther (attempt + 1) (str "An error occurred: " ++ msg)

/-- `attempt_limit = 5` retry attempts for one recipient. -/
def apiTryRecipient (behavior : Nat → ApiSendOutcome) : RecipOutcome :=
  apiTryAux behavior 0 5

/-- A progress-callback event `{index, email, status, message}`. -/
structure ProgressEvent where
  index : Nat
  email : Str
  status : Str
  message : Option Str
deriving DecidableEq, Repr

/-- The counts dict returned by `EmailService.send_mass_emails`. -/
structure ApiResult where
  total : Nat
  success : Nat
  failed : Nat
  canceled : Bool
deriving DecidableEq, Repr

/-- A full run of `EmailService.send_mass_emails`: the returned dict or the
escaping exception message, the progress events emitted, and for each
recipient whose send was attempted, the number of attempts consumed. -/
structure ApiMassOutput where
  result : Except Str ApiResult
  events : List ProgressEvent
  attempted : List (Str × Nat)
deriving Repr

/-- The batch-level exception message escaping a `DailyLimitExceeded` re-raise:
the loop raises `DailyLimitExceeded(f"[ERROR] Daily limit exceeded when
sending to: {recipient}: {daily_err}")` (with `str(daily_err)` empty), and the
outer handler wraps it as `f"An error occurred: {e}"`. -/
def dailyBatchMsg (recipient : Str) : Str :=
  str "An error occurred: [ERROR] Daily limit exceeded when sending to: " ++ recipient ++ str ": "

/-- The batch-level exception message escaping a per-recipient failure: the
loop raises `f"An error occurred sending email to {recipient}: {e}"` and the
outer handler wraps it again as `f"An error occurred: {e}"`. -/
def otherBatchMsg (recipient inner : Str) : Str :=
  str "An error occurred: An error occurred sending email to " ++ recipient ++ str ": " ++ inner

/-- The `for i, entry in enumerate(recipients_data, 1)` loop of
`EmailService.send_mass_emails` (lines 98-151): check the cancel flag before
each recipient's retry loop; count successes and emit a success event; on
rate-limit exhaustion silently move on; on a daily-limit signature abort the
batch; on any other failure count it, emit a failure event, then abort. -/
def apiMassLoop (transport : Nat → Nat → ApiSendOutcome) (cancel : Nat → Bool) (total : Nat) :
    List Str → Nat → Nat → Nat → List ProgressEvent → List (Str × Nat) → ApiMassOutput
  | [], _, sc, fc, evs, att => ⟨.ok ⟨total, sc, fc, false⟩, evs, att⟩
  | r :: rest, i, sc, fc, evs, att =>
    if cancel i then ⟨.ok ⟨total, sc, fc, true⟩, evs, att⟩
    else
      match apiTryRecipient (transport i) with
      | .success a =>
        apiMassLoop transport cancel total rest (i + 1) (sc + 1) fc
          (evs ++ [⟨i, r, str "success", none⟩]) (att ++ [(r, a)])
      | .exhaustedRate =>
        apiMassLoop transport cancel total rest (i + 1) sc fc evs (att ++ [(r, MAX_RETRIES)])
      | .abortDaily a =>
        ⟨.error (dailyBatchMsg r), evs, att ++ [(r, a)]⟩
      | .abortOther a inner =>
        ⟨.error (otherBatchMsg r inner), evs ++ [⟨i, r, str "failed", some inner⟩],
          att ++ [(r, a)]⟩

/-- `EmailService.send_mass_emails` over an already-built recipient list. -/
def apiSendMassEmails (transport : Nat → Nat → ApiSendOutcome) (cancel : Nat → Bool)
    (recipients : List Str) : ApiMassOutput :=
  apiMassLoop transport cancel recipients.length recipients 1 0 0 [] []

/-- The top-level dict returned by the static `EmailService.send` (status,
error message, and the `summary` counts). -/
structure SendResponse where
  status : Str
  error : Option Str
  total : Nat
  success : Nat
  failed : Nat
deriving DecidableEq, Repr

/-- The static `EmailService.send` (lines 207-522) after the recipient list
has been built: constructing `EmailService` raises on an authentication
failure (`authFail = some m`), which the outermost handler turns into an
`"Erro ao processar payload"` error response; an empty recipient list yields
the `"Nenhum email encontrado"` error response; otherwise the batch runs and
any escaping exception is turned into an `"Erro ao enviar"` error response
whose summary reports zero successes and all recipients failed.  The function
catches every exception: it always returns a response dict. -/
def emailServiceSend (authFail : Option Str) (transport : Nat → Nat → ApiSendOutcome)
    (cancel : Nat → Bool) (recipients : List Str) : SendResponse :=
  match authFail with
  | some m => ⟨str "error", some (str "Erro ao processar payload: " ++ m), 0, 0, 0⟩
  | none =>
    if recipients = [] then
      ⟨str "error", some (str "Nenhum email encontrado na coluna"), 0, 0, 0⟩
    else
      match (apiSendMassEmails transport cancel recipients).result with
      | .ok r => ⟨str "success", none, r.total, r.success, r.failed⟩
      | .error m =>
        ⟨str "error", some (str "Erro ao enviar: " ++ m), recipients.length, 0, recipients.length⟩

/-! ## Job store and runner (api/services/job_manager.py) -/

/-- Job lifecycle states. -/
inductive JobState where
  | queued
  | running
  | done
  | error
deriving DecidableEq, Repr

/-- One entry of the `items` ring buffer. -/
structure JobItem where
  index : Option Nat
  email : Option Str
  status : Option Str
  message : Option Str
deriving DecidableEq, Repr

/-- One job record (timestamps omitted; see the file header). -/
structure Job where
  state : JobState
  total : Nat
  processed : Nat
  success : Nat
  failed : Nat
  items : List JobItem
  error : Option Str
  cancel : Bool
deriving DecidableEq, Repr

/-- The record `create_job` installs. -/
def newJob : Job := ⟨.queued, 0, 0, 0, 0, [], none, false⟩

/-- The process-wide `_jobs` dict. -/
abbrev JobStore := List (Str × Job)

/-- `_jobs.get(job_id)`. -/
def storeGet (s : JobStore) (id : Str) : Option Job := dictLookup s id

/-- The shared shape of every mutating operation: fetch the job, do nothing
if it is unknown, otherwise update it in place. -/
def storeModify (s : JobStore) (id : Str) (f : Job → Job) : JobStore :=
  match dictLookup s id with
  | none => s
  | some _ => s.map (fun e => if e.1 = id then (e.1, f e.2) else e)

/-- `set_total`. -/
def setTotal (s : JobStore) (id : Str) (n : Nat) : JobStore :=
  storeModify s id (fun j => { j with total := n })

/-- The per-job update of `update_progress` (lines 49-65): bump `processed`
to `max(processed, index)`, increment `success`/`failed` according to
`status`, and append to the 200-entry ring buffer when any of
email/status/message is present. -/
def updateProgressJob (index : Option Nat) (email status message : Option Str) (j : Job) : Job :=
  let j1 := match index with
    | some i => { j with processed := Nat.max j.processed i }
    | none => j
  let j2 :=
    if status = some (str "success") then { j1 with success := j1.success + 1 }
    else if status = some (str "failed") then { j1 with failed := j1.failed + 1 }
    else j1
  if email ≠ none ∨ status ≠ none ∨ message ≠ none then
    let its := j2.items ++ [⟨index, email, status, message⟩]
    { j2 with items := if 200 < its.length then its.drop (its.length - 200) else its }
  else j2

/-- `update_progress`: a no-op on unknown job ids. -/
def updateProgress (s : JobStore) (id : Str) (index : Option Nat)
    (email status message : Option Str) : JobStore :=
  storeModify s id (updateProgressJob index email status message)

/-- `mark_running`. -/
def markRunning (s : JobStore) (id : Str) : JobStore :=
  storeModify s id (fun j => { j with state := .running })

/-- The top-level numeric keys `mark_done` looks for in the result dict it is
handed (`result.get('total')` etc.). -/
structure TopDict where
  totalKey : Option Nat
  successKey : Option Nat
  failedKey : Option Nat
deriving DecidableEq, Repr

/-- The per-job update of `mark_done` (lines 76-85): set the state and merge
whichever top-level count keys the result dict has. -/
def markDoneJob (result : Option TopDict) (j : Job) : Job :=
  let j1 := { j with state := JobState.done }
  match result with
  | none => j1
  | some r =>
    { j1 with
      total := r.totalKey.getD j1.total
      success := r.successKey.getD j1.success
      failed := r.failedKey.getD j1.failed }

/-- `mark_done`: a no-op on unknown job ids. -/
def markDone (s : JobStore) (id : Str) (result : Option TopDict) : JobStore :=
  storeModify s id (markDoneJob result)

/-- `mark_error`. -/
def markError (s : JobStore) (id : Str) (e : Str) : JobStore :=
  storeModify s id (fun j => { j with state := JobState.error, error := some e })

/-- `cancel_job` (lines 97-102): set the cancel flag — with no check of the
job's state. -/
def cancelJob (s : JobStore) (id : Str) : JobStore :=
  storeModify s id (fun j => { j with cancel := true })

/-- `is_canceled`: false for unknown ids. -/
def isCanceled (s : JobStore) (id : Str) : Bool :=
  match storeGet s id with
  | none => false
  | some j => j.cancel

/-- The result dict `EmailService.send` returns has its counts nested under
`'summary'`, so `mark_done` finds none of the top-level keys it merges. -/
def sendResponseTop (_ : SendResponse) : TopDict := ⟨none, none, none⟩

/-- Replay the progress callbacks of a run into the store, as the `_progress`
closure wired in `EmailService.send` (lines 455-459) does. -/
def applyEvents (id : Str) : JobStore → List ProgressEvent → JobStore
  | s, [] => s
  | s, e :: rest =>
    applyEvents id (updateProgress s id (some e.index) (some e.email) (some e.status) e.message) rest

/-- The `_runner` of `run_job_in_thread` (lines 115-124) composed with the
static `EmailService.send`: mark running, run the dispatch, and — because
`EmailService.send` catches every exception and returns a response dict —
always reach `mark_done`; `mark_error` would require `send` itself to raise. -/
def runEmailJob (s : JobStore) (id : Str) (authFail : Option Str)
    (transport : Nat → Nat → ApiSendOutcome) (recipients : List Str) : JobStore :=
  let s1 := markRunning s id
  match authFail with
  | some m => markDone s1 id (some (sendResponseTop (emailServiceSend (some m) transport (fun _ => false) recipients)))
  | none =>
    if recipients = [] then
      markDone s1 id (some (sendResponseTop (emailServiceSend none transport (fun _ => false) recipients)))
    else
      let s2 := setTotal s1 id recipients.length
      let run := apiSendMassEmails transport (fun _ => isCanceled s2 id) recipients
      let s3 := applyEvents id s2 run.events
      markDone s3 id (some (sendResponseTop (emailServiceSend none transport (fun _ => isCanceled s2 id) recipients)))

/-! ## Helper lemmas: strings and substitution -/

lemma replaceAllFuel_of_not_contains (pat rep : Str) :
    ∀ (fuel : Nat) (s : Str), strContains pat s = false → replaceAllFuel pat rep fuel s = s := by
  intro fuel
  induction fuel with
  | zero => intro s _; rfl
  | succ n ih =>
    intro s hs
    cases s with
    | nil => rfl
    | cons c t =>
      have hor := hs
      simp only [strContains, Bool.or_eq_false_iff] at hor
      simp only [replaceAllFuel]
      rw [if_neg (by simp [hor.1])]
      exact congrArg (c :: ·) (ih t hor.2)

lemma replaceAll_of_not_contains (pat rep s : Str)
    (hs : strContains pat s = false) : replaceAll pat rep s = s :=
  replaceAllFuel_of_not_contains pat rep s.length s hs

/-- C8 counterexample — placeholder replacement is sequential over the row's
keys and each pass rescans the text substituted so far: with template `"{A}"`
and row `{"A": "{B}", "B": "x"}`, the only literal placeholder occurrence in
the template is `{A}`, whose value is `"{B}"`, so replacing every literal
template occurrence of each key's placeholder by its value yields `"{B}"`;
the code instead renders `"x"`, because the `{B}` introduced by substituting
`A`'s value is then replaced during `B`'s pass — refuting the claim's
universal reading for multi-key rows. -/
theorem render_chains_values_c8 :
    pyRender (placeholder (str "A")) [(str "A", placeholder (str "B")), (str "B", str "x")] =
      str "x"
    ∧ str "x" ≠ placeholder (str "B") := by
  decide

/-- C8 (amended) — Rendering substitutes the row's keys sequentially in row
order: starting from the template (`pyRender t [] = t`), each key `k` whose
placeholder `{k}` occurs in the text accumulated so far has every occurrence
replaced by its value (Python `str.replace`), so a later key also replaces
placeholders introduced by an earlier key's substituted value (see the
counterexample).  For a single-key row this is exactly "every literal
occurrence of `{k}` in the template is replaced by `str(value)`"; a template
in which no row key's placeholder occurs — in particular one whose
placeholders name no column of the row — is returned verbatim, a silent
no-op, never an error; and the spec's two examples evaluate as stated. -/
theorem templater_replaces_placeholders_c8 :
    (∀ t : Str, pyRender t [] = t)
    ∧ (∀ (t k v : Str) (rest : List (Str × Str)),
        pyRender t ((k, v) :: rest) =
          if strContains (placeholder k) t = true then
            pyRender (replaceAll (placeholder k) v t) rest
          else pyRender t rest)
    ∧ (∀ (t k v : Str), pyRender t [(k, v)] = replaceAll (placeholder k) v t)
    ∧ (∀ (t : Str) (row : List (Str × Str)),
        (∀ kv ∈ row, strContains (placeholder kv.1) t = false) → pyRender t row = t)
    ∧ pyRender (str "Hello {Name}") [(str "Name", str "Ann")] = str "Hello Ann"
    ∧ pyRender (str "Hi {X}") [(str "Name", str "Ann")] = str "Hi {X}" := by
  refine ⟨?_, ?_, ?_, ?_, by decide, by decide⟩
  · intro t
    rfl
  · intro t k v rest
    show List.foldl _
        (if strContains (placeholder k) t = true then replaceAll (placeholder k) v t else t)
        rest = _
    by_cases h : strContains (placeholder k) t = true
    · rw [if_pos h, if_pos h]
      rfl
    · rw [if_neg h, if_neg h]
      rfl
  · intro t k v
    show (if strContains (placeholder k) t = true then replaceAll (placeholder k) v t else t)
        = replaceAll (placeholder k) v t
    by_cases h : strContains (placeholder k) t = true
    · simp [h]
    · have hf : strContains (placeholder k) t = false := by
        cases hb : strContains (placeholder k) t
        · rfl
        · exact absurd hb h
      simp [hf, replaceAll_of_not_contains (placeholder k) v t hf]
  · intro t row h
    induction row with
    | nil => rfl
    | cons kv rest ih =>
      have h1 : strContains (placeholder kv.1) t = false := h kv (by simp)
      show List.foldl _ _ (kv :: rest) = t
      rw [List.foldl_cons]
      have hstep :
          (if strContains (placeholder kv.1) t = true then replaceAll (placeholder kv.1) kv.2 t else t) = t := by
        simp [h1]
      simp only [hstep]
      exact ih (fun e he => h e (List.mem_cons_of_mem kv he))

/-- A closed instance of `templater_replaces_placeholders_c8`: the verbatim
no-op conjunct discharged at a concrete template and row. -/
theorem templater_replaces_placeholders_c8_witness :
    pyRender (str "Plain text") [(str "Name", str "Ann")] = str "Plain text" :=
  templater_replaces_placeholders_c8.2.2.2.1 (str "Plain text") [(str "Name", str "Ann")]
    (by decide)

/-! ## C7: attachment reference resolution -/

lemma collectMatches_contem (nr : Str) :
    ∀ m : List (Str × FileBlob),
      collectMatches .contem nr m =
        (m.filter (fun e => matchesMode .contem nr e.1)).map Prod.snd := by
  intro m
  induction m with
  | nil => rfl
  | cons e rest ih =>
    obtain ⟨k, b⟩ := e
    by_cases h : matchesMode .contem nr k = true
    · simp [collectMatches, List.filter_cons, h, ih]
    · have hf : matchesMode .contem nr k = false := by
        cases hb : matchesMode .contem nr k
        · rfl
        · exact absurd hb h
      simp [collectMatches, List.filter_cons, hf, ih]

lemma collectMatches_first (mode : MatchMode) (nr : Str) (hm : mode ≠ .contem) :
    ∀ m : List (Str × FileBlob),
      collectMatches mode nr m =
        match m.find? (fun e => matchesMode mode nr e.1) with
        | some e => [e.2]
        | none => [] := by
  intro m
  induction m with
  | nil => rfl
  | cons e rest ih =>
    obtain ⟨k, b⟩ := e
    by_cases h : matchesMode mode nr k = true
    · simp [collectMatches, List.find?_cons, h, hm]
    · have hf : matchesMode mode nr k = false := by
        cases hb : matchesMode mode nr k
        · rfl
        · exact absurd hb h
      simp [collectMatches, List.find?_cons, hf, ih]

/-- Blob A of the spec's resolver example. -/
def blobA : FileBlob := ⟨str "invoice_jan.pdf", [1]⟩

/-- Blob B of the spec's resolver example. -/
def blobB : FileBlob := ⟨str "invoice_feb.pdf", [2]⟩

/-- The spec's candidate map `{"invoice_jan": blobA, "invoice_feb": blobB}`
(candidate names already normalized, in insertion order). -/
def demoMap : List (Str × FileBlob) := [(str "invoice_jan", blobA), (str "invoice_feb", blobB)]

/-- C7 — Attachment resolution: `_normalize(" → invoice.PDF ") = "invoice"`;
in mode `contem` the scan collects the blob of every matching candidate in
candidate iteration order; in the other three modes the scan stops at the
first matching candidate (one blob, or none); and the spec's example resolves
to `[blobA, blobB]` under `contem` and to `[]` under `igual`. -/
theorem attachment_resolution_c7 :
    pyNormalize (str " → invoice.PDF ") = str "invoice"
    ∧ (∀ (map : List (Str × FileBlob)) (ref : Str),
        resolveRef .contem map ref =
          (map.filter (fun e => matchesMode .contem (pyNormalize (pyStrip ref)) e.1)).map Prod.snd)
    ∧ (∀ (mode : MatchMode) (map : List (Str × FileBlob)) (ref : Str), mode ≠ .contem →
        resolveRef mode map ref =
          match map.find? (fun e => matchesMode mode (pyNormalize (pyStrip ref)) e.1) with
          | some e => [e.2]
          | none => [])
    ∧ resolveRef .contem demoMap (str "invoice") = [blobA, blobB]
    ∧ resolveRef .igual demoMap (str "invoice") = [] := by
  refine ⟨by decide, ?_, ?_, by decide, by decide⟩
  · intro map ref
    exact collectMatches_contem (pyNormalize (pyStrip ref)) map
  · intro mode map ref hm
    exact collectMatches_first mode (pyNormalize (pyStrip ref)) hm map

/-- A closed instance of `attachment_resolution_c7`: the first-match conjunct
discharged at mode `igual` over the demo map. -/
theorem attachment_resolution_c7_witness :
    resolveRef .igual demoMap (str "invoice_feb") =
      match demoMap.find? (fun e => matchesMode .igual (pyNormalize (pyStrip (str "invoice_feb"))) e.1) with
      | some e => [e.2]
      | none => [] :=
  attachment_resolution_c7.2.2.1 .igual demoMap (str "invoice_feb") (by decide)

/-! ## C10: the normalized attachment index keeps one blob per name -/

lemma dictLookup_append {α : Type} :
    ∀ (a b : List (Str × α)) (k : Str),
      dictLookup (a ++ b) k =
        match dictLookup a k with
        | some v => some v
        | none => dictLookup b k := by
  intro a
  induction a with
  | nil => intro b k; rfl
  | cons e rest ih =>
    intro b k
    obtain ⟨k1, w⟩ := e
    by_cases h : k1 = k
    · simp [dictLookup, h]
    · simp [dictLookup, h, ih]

lemma dictLookup_of_any_false {α : Type} :
    ∀ (m : List (Str × α)) (k : Str), m.any (fun e => e.1 = k) = false → dictLookup m k = none := by
  intro m
  induction m with
  | nil => intro k _; rfl
  | cons e rest ih =>
    intro k h
    obtain ⟨k1, w⟩ := e
    simp only [List.any_cons, Bool.or_eq_false_iff] at h
    have h1 : k1 ≠ k := of_decide_eq_false h.1
    simp [dictLookup, h1, ih k h.2]

lemma dictLookup_cons {α : Type} (k1 : Str) (w : α) (t : List (Str × α)) (k : Str) :
    dictLookup ((k1, w) :: t) k = if k1 = k then some w else dictLookup t k := rfl

lemma dictLookup_map_update {α : Type} (k : Str) (v : α) :
    ∀ (m : List (Str × α)) (k2 : Str),
      dictLookup (m.map fun e => if e.1 = k then (k, v) else e) k2 =
        if k2 = k then (if m.any (fun e => e.1 = k) then some v else none)
        else dictLookup m k2 := by
  intro m
  induction m with
  | nil =>
    intro k2
    by_cases h : k2 = k
    · rw [if_pos h]; rfl
    · rw [if_neg h]; rfl
  | cons e rest ih =>
    intro k2
    obtain ⟨k1, w⟩ := e
    by_cases h1 : k1 = k
    · have hhead : (if (k1, w).1 = k then (k, v) else (k1, w)) = (k, v) := if_pos h1
      rw [List.map_cons, hhead, dictLookup_cons]
      by_cases h2 : k2 = k
      · rw [if_pos h2.symm, if_pos h2]
        have hany : ((k1, w) :: rest).any (fun e => e.1 = k) = true := by
          simp [List.any_cons, h1]
        rw [hany, if_pos rfl]
      · have hk12 : ¬ k1 = k2 := by
          rw [h1]
          exact fun hh => h2 hh.symm
        rw [if_neg (fun hh : k = k2 => h2 hh.symm), if_neg h2, ih k2, if_neg h2,
          dictLookup_cons, if_neg hk12]
    · have hhead : (if (k1, w).1 = k then (k, v) else (k1, w)) = (k1, w) := if_neg h1
      rw [List.map_cons, hhead, dictLookup_cons]
      by_cases h3 : k1 = k2
      · have h2 : ¬ k2 = k := fun hh => h1 (h3 ▸ hh)
        rw [if_pos h3, if_neg h2, dictLookup_cons, if_pos h3]
      · rw [if_neg h3, ih k2]
        by_cases h2 : k2 = k
        · rw [if_pos h2, if_pos h2]
          have hany : ((k1, w) :: rest).any (fun e => e.1 = k) = rest.any (fun e => e.1 = k) := by
            simp [List.any_cons, h1]
          rw [hany]
        · rw [if_neg h2, if_neg h2, dictLookup_cons, if_neg h3]

lemma dictLookup_dictInsert {α : Type} (m : List (Str × α)) (k : Str) (v : α) (k2 : Str) :
    dictLookup (dictInsert m k v) k2 = if k2 = k then some v else dictLookup m k2 := by
  unfold dictInsert
  by_cases hany : m.any (fun e => e.1 = k) = true
  · rw [if_pos hany, dictLookup_map_update k v m k2, hany]
    by_cases h2 : k2 = k
    · rw [if_pos h2, if_pos h2, if_pos rfl]
    · rw [if_neg h2, if_neg h2]
  · have hf : m.any (fun e => e.1 = k) = false := by
      cases hb : m.any (fun e => e.1 = k)
      · rfl
      · exact absurd hb hany
    rw [if_neg hany, dictLookup_append]
    by_cases h2 : k2 = k
    · subst h2
      rw [dictLookup_of_any_false m k2 hf, if_pos rfl, dictLookup_cons, if_pos rfl]
    · rw [if_neg h2]
      cases hl : dictLookup m k2
      · rw [dictLookup_cons, if_neg (fun hh : k = k2 => h2 hh.symm)]
        rfl
      · rfl

/-- The last uploaded file whose normalized basename is `n`. -/
def lastWithNorm (n : Str) (files : List FileBlob) : Option FileBlob :=
  (files.filter (fun f => normalizeFileName f = n)).getLast?

lemma buildAttachmentsMap_concat (fs : List FileBlob) (f : FileBlob) :
    buildAttachmentsMap (fs ++ [f]) =
      (if normalizeFileName f = [] then buildAttachmentsMap fs
       else dictInsert (buildAttachmentsMap fs) (normalizeFileName f) f) := by
  simp [buildAttachmentsMap, List.foldl_append]

lemma buildMap_lookup_lastWithNorm (n : Str) (hn : n ≠ []) :
    ∀ files : List FileBlob, dictLookup (buildAttachmentsMap files) n = lastWithNorm n files := by
  intro files
  induction files using List.reverseRecOn with
  | nil => simp [buildAttachmentsMap, lastWithNorm, dictLookup]
  | append_singleton fs f ih =>
    rw [buildAttachmentsMap_concat]
    by_cases h0 : normalizeFileName f = []
    · have hfn : ¬ (normalizeFileName f = n) := by
        intro he
        exact hn (he ▸ h0)
      simp only [h0, if_true]
      rw [ih]
      unfold lastWithNorm
      simp [List.filter_append, hfn]
    · simp only [h0, if_false]
      rw [dictLookup_dictInsert]
      by_cases h2 : n = normalizeFileName f
      · subst h2
        unfold lastWithNorm
        simp [List.filter_append]
      · rw [if_neg h2, ih]
        unfold lastWithNorm
        have hfn : ¬ (normalizeFileName f = n) := fun he => h2 he.symm
        simp [List.filter_append, hfn]

lemma mem_dictInsert {α : Type} (m : List (Str × α)) (k : Str) (v : α) (e : Str × α) :
    e ∈ dictInsert m k v → e = (k, v) ∨ e ∈ m := by
  unfold dictInsert
  by_cases hany : m.any (fun x => x.1 = k) = true
  · simp only [hany, if_true]
    intro he
    obtain ⟨e0, he0, heq⟩ := List.mem_map.mp he
    by_cases h : e0.1 = k
    · left
      rw [← heq, if_pos h]
    · right
      rw [← heq, if_neg h]
      exact he0
  · have hf : m.any (fun x => x.1 = k) = false := by
      cases hb : m.any (fun x => x.1 = k)
      · rfl
      · exact absurd hb hany
    simp only [hf, Bool.false_eq_true, if_false]
    intro he
    rcases List.mem_append.mp he with h | h
    · exact Or.inr h
    · left
      simpa using h

lemma dictInsert_keys {α : Type} (m : List (Str × α)) (k : Str) (v : α) :
    (dictInsert m k v).map Prod.fst =
      if m.any (fun e => e.1 = k) then m.map Prod.fst else m.map Prod.fst ++ [k] := by
  unfold dictInsert
  by_cases hany : m.any (fun e => e.1 = k) = true
  · simp only [hany, if_true]
    rw [List.map_map]
    refine List.map_congr_left ?_
    intro e _
    by_cases h : e.1 = k
    · simp [h]
    · simp [h]
  · have hf : m.any (fun e => e.1 = k) = false := by
      cases hb : m.any (fun e => e.1 = k)
      · rfl
      · exact absurd hb hany
    simp [hf]

lemma buildMap_aux_inv (P : Str × FileBlob → Prop)
    (hP : ∀ f : FileBlob, normalizeFileName f ≠ [] → P (normalizeFileName f, f)) :
    ∀ (files : List FileBlob) (m : List (Str × FileBlob)), (∀ e ∈ m, P e) →
      ∀ e ∈ files.foldl
          (fun m f => if normalizeFileName f = [] then m else dictInsert m (normalizeFileName f) f) m,
        P e := by
  intro files
  induction files with
  | nil => intro m hm e he; exact hm e he
  | cons f rest ih =>
    intro m hm e he
    rw [List.foldl_cons] at he
    by_cases h0 : normalizeFileName f = []
    · rw [if_pos h0] at he
      exact ih m hm e he
    · rw [if_neg h0] at he
      refine ih (dictInsert m (normalizeFileName f) f) ?_ e he
      intro e2 he2
      rcases mem_dictInsert m (normalizeFileName f) f e2 he2 with h | h
      · rw [h]; exact hP f h0
      · exact hm e2 h

lemma buildMap_entry_norm (files : List FileBlob) :
    ∀ e ∈ buildAttachmentsMap files, e.1 = normalizeFileName e.2 := by
  have h := buildMap_aux_inv (fun e => e.1 = normalizeFileName e.2)
    (fun f _ => rfl) files [] (by intro e he; cases he)
  intro e he
  refine h e ?_
  simpa [buildAttachmentsMap] using he

lemma buildMap_keys_nodup (files : List FileBlob) :
    ((buildAttachmentsMap files).map Prod.fst).Nodup := by
  have haux : ∀ (fs : List FileBlob) (m : List (Str × FileBlob)), (m.map Prod.fst).Nodup →
      ((fs.foldl
        (fun m f => if normalizeFileName f = [] then m else dictInsert m (normalizeFileName f) f)
        m).map Prod.fst).Nodup := by
    intro fs
    induction fs with
    | nil => intro m hm; exact hm
    | cons f rest ih =>
      intro m hm
      rw [List.foldl_cons]
      by_cases h0 : normalizeFileName f = []
      · rw [if_pos h0]; exact ih m hm
      · rw [if_neg h0]
        refine ih _ ?_
        rw [dictInsert_keys]
        by_cases hany : m.any (fun e => e.1 = normalizeFileName f) = true
        · simpa [hany] using hm
        · have hf : m.any (fun e => e.1 = normalizeFileName f) = false := by
            cases hb : m.any (fun e => e.1 = normalizeFileName f)
            · rfl
            · exact absurd hb hany
          rw [hf]
          simp only [Bool.false_eq_true, if_false]
          have hnotmem : normalizeFileName f ∉ m.map Prod.fst := by
            intro hmem
            obtain ⟨e, he, heq⟩ := List.mem_map.mp hmem
            have := List.any_eq_false.mp hf e he
            simp [heq] at this
          simp [List.nodup_append, hm, hnotmem]
  have h := haux files [] (by simp)
  simpa [buildAttachmentsMap] using h

lemma dictLookup_of_mem_nodup {α : Type} :
    ∀ (m : List (Str × α)) (k : Str) (v : α),
      (m.map Prod.fst).Nodup → (k, v) ∈ m → dictLookup m k = some v := by
  intro m
  induction m with
  | nil => intro k v _ h; cases h
  | cons e rest ih =>
    intro k v hnd hmem
    obtain ⟨k1, w⟩ := e
    rcases List.mem_cons.mp hmem with h | h
    · cases h
      rw [dictLookup_cons, if_pos rfl]
    · have hk1 : ¬ k1 = k := by
        intro he
        subst he
        rw [List.map_cons, List.nodup_cons] at hnd
        exact hnd.1 (List.mem_map.mpr ⟨(k1, v), h, rfl⟩)
      have hnd2 : (rest.map Prod.fst).Nodup := by
        rw [List.map_cons, List.nodup_cons] at hnd
        exact hnd.2
      rw [dictLookup_cons, if_neg hk1]
      exact ih k v hnd2 h

lemma collectMatches_mem (mode : MatchMode) (nr : Str) :
    ∀ (m : List (Str × FileBlob)) (b : FileBlob),
      b ∈ collectMatches mode nr m → ∃ k, (k, b) ∈ m := by
  intro m
  induction m with
  | nil => intro b h; cases h
  | cons e rest ih =>
    intro b h
    obtain ⟨k1, w⟩ := e
    by_cases hm : matchesMode mode nr k1 = true
    · by_cases hc : mode = .contem
      · rw [collectMatches, if_pos hm, if_pos hc] at h
        rcases List.mem_cons.mp h with h1 | h1
        · exact ⟨k1, by simp [h1]⟩
        · obtain ⟨k2, hk2⟩ := ih b h1
          exact ⟨k2, List.mem_cons_of_mem _ hk2⟩
      · rw [collectMatches, if_pos hm, if_neg hc] at h
        have : b = w := by simpa using h
        exact ⟨k1, by simp [this]⟩
    · have hf : matchesMode mode nr k1 = false := by
        cases hb : matchesMode mode nr k1
        · rfl
        · exact absurd hb hm
      rw [collectMatches, if_neg (by simp [hf])] at h
      obtain ⟨k2, hk2⟩ := ih b h
      exact ⟨k2, List.mem_cons_of_mem _ hk2⟩

/-- The earlier of two uploads whose names normalize to `"report"`. -/
def dupOld : FileBlob := ⟨str "Report.PDF", [1]⟩

/-- The later of two uploads whose names normalize to `"report"`. -/
def dupNew : FileBlob := ⟨str "report.pdf", [2]⟩

/-- C10 — The normalized attachment index keeps at most one blob per
normalized name: looking a name up in the built index yields exactly the
*last* uploaded file with that normalized basename, so a later duplicate
overwrites an earlier one; every blob any match mode resolves is the index's
blob for its own normalized name, so an overwritten blob can never be
resolved; and concretely two uploads normalizing to `"report"` leave a
one-entry index holding only the later blob, which is all that `contem`
fan-out returns. -/
theorem attachment_index_overwrites_c10 :
    (∀ (files : List FileBlob) (n : Str), n ≠ [] →
        dictLookup (buildAttachmentsMap files) n = lastWithNorm n files)
    ∧ (∀ (files : List FileBlob) (mode : MatchMode) (ref : Str) (b : FileBlob),
        b ∈ resolveRef mode (buildAttachmentsMap files) ref →
          dictLookup (buildAttachmentsMap files) (normalizeFileName b) = some b)
    ∧ buildAttachmentsMap [dupOld, dupNew] = [(str "report", dupNew)]
    ∧ resolveRef .contem (buildAttachmentsMap [dupOld, dupNew]) (str "report") = [dupNew] := by
  refine ⟨?_, ?_, by decide, by decide⟩
  · intro files n hn
    exact buildMap_lookup_lastWithNorm n hn files
  · intro files mode ref b hb
    obtain ⟨k, hk⟩ := collectMatches_mem mode (pyNormalize (pyStrip ref)) (buildAttachmentsMap files) b hb
    have hkey : k = normalizeFileName b := buildMap_entry_norm files (k, b) hk
    rw [hkey] at hk
    exact dictLookup_of_mem_nodup (buildAttachmentsMap files) (normalizeFileName b) b
      (buildMap_keys_nodup files) hk

/-- A closed instance of `attachment_index_overwrites_c10`: the
last-wins lookup conjunct discharged on the duplicate-name uploads. -/
theorem attachment_index_overwrites_c10_witness :
    dictLookup (buildAttachmentsMap [dupOld, dupNew]) (str "report") =
      lastWithNorm (str "report") [dupOld, dupNew] :=
  attachment_index_overwrites_c10.1 [dupOld, dupNew] (str "report") (by decide)

/-! ## C9: mutating JobStore operations on unknown ids -/

lemma storeModify_unknown (s : JobStore) (id : Str) (f : Job → Job)
    (h : dictLookup s id = none) : storeModify s id f = s := by
  unfold storeModify
  rw [h]

/-- C9 — Every mutating JobStore operation invoked with a job id not present
in the store is a no-op that does not raise: `update_progress`, `set_total`,
`mark_running`, `mark_done`, `mark_error` and `cancel_job` all return the
store unchanged, and `is_canceled` returns false. -/
theorem jobstore_unknown_noop_c9 :
    ∀ (s : JobStore) (id : Str), storeGet s id = none →
      (∀ (index : Option Nat) (email status message : Option Str),
          updateProgress s id index email status message = s)
      ∧ (∀ n : Nat, setTotal s id n = s)
      ∧ markRunning s id = s
      ∧ (∀ r : Option TopDict, markDone s id r = s)
      ∧ (∀ e : Str, markError s id e = s)
      ∧ cancelJob s id = s
      ∧ isCanceled s id = false := by
  intro s id h
  have h0 : dictLookup s id = none := h
  refine ⟨?_, ?_, ?_, ?_, ?_, ?_, ?_⟩
  · intro index email status message
    exact storeModify_unknown s id _ h0
  · intro n
    exact storeModify_unknown s id _ h0
  · exact storeModify_unknown s id _ h0
  · intro r
    exact storeModify_unknown s id _ h0
  · intro e
    exact storeModify_unknown s id _ h0
  · exact storeModify_unknown s id _ h0
  · unfold isCanceled storeGet
    rw [h0]

/-- A closed instance of `jobstore_unknown_noop_c9` at an empty store. -/
theorem jobstore_unknown_noop_c9_witness :
    updateProgress [] (str "job-x") (some 3) (some (str "a@x.com")) (some (str "success")) none = []
    ∧ isCanceled [] (str "job-x") = false :=
  ⟨(jobstore_unknown_noop_c9 [] (str "job-x") rfl).1 (some 3) (some (str "a@x.com"))
      (some (str "success")) none,
   (jobstore_unknown_noop_c9 [] (str "job-x") rfl).2.2.2.2.2.2⟩

/-! ## C5: finished jobs and cancellation -/

lemma dictLookup_map_apply {α : Type} (k : Str) (g : α → α) :
    ∀ (m : List (Str × α)) (k2 : Str),
      dictLookup (m.map fun e => if e.1 = k then (e.1, g e.2) else e) k2 =
        if k2 = k then (dictLookup m k).map g else dictLookup m k2 := by
  intro m
  induction m with
  | nil =>
    intro k2
    by_cases h : k2 = k
    · rw [if_pos h]
      rfl
    · rw [if_neg h]
      rfl
  | cons e rest ih =>
    intro k2
    obtain ⟨k1, w⟩ := e
    by_cases h1 : k1 = k
    · by_cases h2 : k2 = k
      · have h12 : k1 = k2 := h1.trans h2.symm
        simp only [List.map_cons, if_pos h1, dictLookup_cons, if_pos h12, if_pos h2]
        rfl
      · have h12 : ¬ k1 = k2 := fun hh => h2 (hh.symm.trans h1)
        simp only [List.map_cons, if_pos h1, dictLookup_cons, if_neg h12, if_neg h2, ih k2]
    · by_cases h3 : k1 = k2
      · have h2 : ¬ k2 = k := fun hh => h1 (h3.trans hh)
        simp only [List.map_cons, if_neg h1, dictLookup_cons, if_pos h3, if_neg h2]
      · by_cases h2 : k2 = k
        · simp only [List.map_cons, if_neg h1, dictLookup_cons, if_neg h3, ih k2, if_pos h2]
        · simp only [List.map_cons, if_neg h1, dictLookup_cons, if_neg h3, ih k2, if_neg h2]

lemma storeGet_storeModify (s : JobStore) (jid : Str) (f : Job → Job) (id2 : Str) :
    storeGet (storeModify s jid f) id2 =
      if id2 = jid then (storeGet s jid).map f else storeGet s id2 := by
  unfold storeGet storeModify
  cases h : dictLookup s jid with
  | none =>
    by_cases h2 : id2 = jid
    · rw [if_pos h2]
      show dictLookup s id2 = Option.map f none
      rw [h2, h]
      rfl
    · rw [if_neg h2]
  | some j =>
    rw [dictLookup_map_apply jid f s id2, h]

lemma not_mem_of_dictLookup_none {α : Type} :
    ∀ (m : List (Str × α)) (k : Str), dictLookup m k = none → ∀ v : α, (k, v) ∉ m := by
  intro m
  induction m with
  | nil =>
    intro k _ v hv
    cases hv
  | cons e rest ih =>
    intro k h v hv
    obtain ⟨k1, w⟩ := e
    rw [dictLookup_cons] at h
    by_cases h1 : k1 = k
    · rw [if_pos h1] at h
      cases h
    · rw [if_neg h1] at h
      rcases List.mem_cons.mp hv with hh | hh
      · exact h1 (congrArg Prod.fst hh).symm
      · exact ih k h v hh

/-- The observable fields of a job other than the cancel flag. -/
def jobCore (j : Job) : JobState × Nat × Nat × Nat × Nat × List JobItem × Option Str :=
  (j.state, j.total, j.processed, j.success, j.failed, j.items, j.error)

lemma cancelJob_of_all_canceled (s : JobStore) (jid : Str)
    (h : ∀ j : Job, (jid, j) ∈ s → j.cancel = true) : cancelJob s jid = s := by
  unfold cancelJob storeModify
  cases hl : dictLookup s jid with
  | none => rfl
  | some j0 =>
    have hid : ∀ e ∈ s,
        (if e.1 = jid then (e.1, { e.2 with cancel := true }) else e) = (fun x => x) e := by
      intro e he
      obtain ⟨a, b⟩ := e
      by_cases h1 : a = jid
      · subst h1
        have hc : b.cancel = true := h b he
        rw [if_pos rfl]
        show (a, { b with cancel := true }) = (a, b)
        cases b
        rw [← hc]
      · rw [if_neg h1]
    rw [List.map_congr_left hid]
    exact List.map_id' s

lemma cancelJob_idem (s : JobStore) (jid : Str) :
    cancelJob (cancelJob s jid) jid = cancelJob s jid := by
  apply cancelJob_of_all_canceled
  intro j hj
  cases hl : dictLookup s jid with
  | none =>
    have hu : cancelJob s jid = s := by
      unfold cancelJob
      exact storeModify_unknown s jid _ hl
    rw [hu] at hj
    exact absurd hj (not_mem_of_dictLookup_none s jid hl j)
  | some j0 =>
    have hc : cancelJob s jid =
        s.map (fun e => if e.1 = jid then (e.1, { e.2 with cancel := true }) else e) := by
      unfold cancelJob storeModify
      rw [hl]
    rw [hc] at hj
    obtain ⟨e, he, heq⟩ := List.mem_map.mp hj
    by_cases h1 : e.1 = jid
    · rw [if_pos h1] at heq
      have hje : j = { e.2 with cancel := true } := (congrArg Prod.snd heq).symm
      rw [hje]
    · rw [if_neg h1] at heq
      exact absurd (congrArg Prod.fst heq) (fun hh => h1 hh)

/-- C5 is violated by the code: `cancel_job` mutates a job that is already in
the terminal state `done` — the cancel flag observably flips from false to
true, so the store changes. -/
def doneJob : Job := { newJob with state := JobState.done }

/-- C5 counterexample — with a store holding one job in state `done`,
`cancel_job` is not a no-op: `is_canceled` flips from false to true and the
store is changed, refuting "no JobStore operation mutates that job any
further" for finished jobs. -/
theorem cancel_mutates_done_job_c5 :
    (storeGet [(str "j1", doneJob)] (str "j1")).map Job.state = some JobState.done
    ∧ isCanceled [(str "j1", doneJob)] (str "j1") = false
    ∧ isCanceled (cancelJob [(str "j1", doneJob)] (str "j1")) (str "j1") = true
    ∧ cancelJob [(str "j1", doneJob)] (str "j1") ≠ [(str "j1", doneJob)] := by
  decide

/-- C5 (amended) — Canceling never raises and never changes a job's state,
counts, items or error (only the cancel flag): canceling an unknown or an
already-canceled job is a no-op, and canceling is idempotent — but on a
finished not-yet-canceled job it does set the cancel flag, because no
JobStore operation guards on terminal states. -/
theorem cancel_terminal_c5 :
    (∀ (s : JobStore) (id id2 : Str),
        (storeGet (cancelJob s id) id2).map jobCore = (storeGet s id2).map jobCore)
    ∧ (∀ (s : JobStore) (id : Str),
        (∀ j : Job, (id, j) ∈ s → j.cancel = true) → cancelJob s id = s)
    ∧ (∀ (s : JobStore) (id : Str), storeGet s id = none → cancelJob s id = s)
    ∧ (∀ (s : JobStore) (id : Str), cancelJob (cancelJob s id) id = cancelJob s id) := by
  refine ⟨?_, ?_, ?_, ?_⟩
  · intro s id id2
    unfold cancelJob
    rw [storeGet_storeModify]
    by_cases h : id2 = id
    · rw [if_pos h, h]
      cases storeGet s id with
      | none => rfl
      | some j => rfl
    · rw [if_neg h]
  · exact cancelJob_of_all_canceled
  · intro s id h
    exact storeModify_unknown s id _ h
  · exact cancelJob_idem

/-- The already-canceled job of the C5 witness. -/
def canceledJob : Job := { newJob with cancel := true }

/-- A closed instance of `cancel_terminal_c5`: canceling an already-canceled
job is a no-op. -/
theorem cancel_terminal_c5_witness :
    cancelJob [(str "j1", canceledJob)] (str "j1") = [(str "j1", canceledJob)] :=
  cancel_terminal_c5.2.1 [(str "j1", canceledJob)] (str "j1") (by
    intro j hj
    injection List.mem_singleton.mp hj with h1 h2
    rw [h2]
    rfl)

/-! ## C3: how a dispatch run terminates the job -/

lemma updateProgressJob_core (index : Option Nat) (email status message : Option Str) (j : Job) :
    (updateProgressJob index email status message j).state = j.state
    ∧ (updateProgressJob index email status message j).error = j.error := by
  unfold updateProgressJob
  cases index <;>
    by_cases h1 : status = some (str "success") <;>
      by_cases h2 : status = some (str "failed") <;>
        by_cases h3 : email ≠ none ∨ status ≠ none ∨ message ≠ none <;>
          simp [h1, h2, h3, show ¬ (str "failed" = str "success") from by decide]

lemma applyEvents_core (jid id2 : Str) :
    ∀ (evs : List ProgressEvent) (s : JobStore),
      (storeGet (applyEvents jid s evs) id2).map (fun j => (j.state, j.error)) =
        (storeGet s id2).map (fun j => (j.state, j.error)) := by
  intro evs
  induction evs with
  | nil => intro s; rfl
  | cons e rest ih =>
    intro s
    show (storeGet (applyEvents jid
        (updateProgress s jid (some e.index) (some e.email) (some e.status) e.message) rest) id2).map _ = _
    rw [ih]
    unfold updateProgress
    rw [storeGet_storeModify]
    by_cases h : id2 = jid
    · rw [if_pos h, h]
      cases hg : storeGet s jid with
      | none => rfl
      | some j =>
        have hc := updateProgressJob_core (some e.index) (some e.email) (some e.status) e.message j
        show some (((updateProgressJob _ _ _ _ j).state, (updateProgressJob _ _ _ _ j).error)) = _
        rw [hc.1, hc.2]
        rfl
    · rw [if_neg h]

/-- C3 counterexample — a dispatch run whose transport construction fails with
an authentication error still leaves the job in state `done` with the job's
`error` field empty: `EmailService.send` swallows the exception into an
error-status response dict, so `run_job_in_thread` reaches `mark_done`, not
`mark_error` — refuting "the job ends in the terminal state error with the
failure captured in the job's error message". -/
theorem job_auth_marked_done_c3 :
    (storeGet
        (runEmailJob [(str "j1", newJob)] (str "j1") (some (str "SMTPAuthenticationError"))
          (fun _ _ => ApiSendOutcome.ok) [str "a@x.com"])
        (str "j1")).map (fun j => (j.state, j.error)) = some (JobState.done, none)
    ∧ JobState.done ≠ JobState.error := by
  decide

/-- C3 (amended) — A transport authentication failure is fatal to the whole
batch and never retried: `EmailService.send` returns an error-status response
with zero counts and no recipient ever attempted.  But the job does not end
in state `error`: because `EmailService.send` catches every exception and
returns a response dict, `run_job_in_thread` always reaches `mark_done`, so
every run — successful or not — ends in state `done`, with the job's `error`
field left untouched and the failure message only inside the returned
response. -/
theorem job_runner_terminal_c3 :
    (∀ (s : JobStore) (jid : Str) (authFail : Option Str)
        (transport : Nat → Nat → ApiSendOutcome) (recipients : List Str) (j0 : Job),
        storeGet s jid = some j0 →
          (storeGet (runEmailJob s jid authFail transport recipients) jid).map
              (fun j => (j.state, j.error)) = some (JobState.done, j0.error))
    ∧ (∀ (m : Str) (transport : Nat → Nat → ApiSendOutcome) (cancel : Nat → Bool)
        (recipients : List Str),
        emailServiceSend (some m) transport cancel recipients =
          ⟨str "error", some (str "Erro ao processar payload: " ++ m), 0, 0, 0⟩) := by
  constructor
  · intro s jid authFail transport recipients j0 h
    cases authFail with
    | some m =>
      show (storeGet (markDone (markRunning s jid) jid _) jid).map _ = _
      unfold markDone markRunning
      rw [storeGet_storeModify, if_pos rfl, storeGet_storeModify, if_pos rfl, h]
      rfl
    | none =>
      by_cases hr : recipients = []
      · show (storeGet (if recipients = [] then markDone (markRunning s jid) jid _ else _) jid).map _ = _
        rw [if_pos hr]
        unfold markDone markRunning
        rw [storeGet_storeModify, if_pos rfl, storeGet_storeModify, if_pos rfl, h]
        rfl
      · show (storeGet (if recipients = [] then _ else _) jid).map _ = _
        rw [if_neg hr]
        unfold markDone
        rw [storeGet_storeModify, if_pos rfl]
        have h2 : storeGet (setTotal (markRunning s jid) jid recipients.length) jid =
            some { { j0 with state := JobState.running } with total := recipients.length } := by
          unfold setTotal markRunning
          rw [storeGet_storeModify, if_pos rfl, storeGet_storeModify, if_pos rfl, h]
          rfl
        have h3 := applyEvents_core jid jid
          (apiSendMassEmails transport
            (fun _ => isCanceled (setTotal (markRunning s jid) jid recipients.length) jid)
            recipients).events
          (setTotal (markRunning s jid) jid recipients.length)
        rw [h2] at h3
        cases hg : storeGet (applyEvents jid (setTotal (markRunning s jid) jid recipients.length)
            (apiSendMassEmails transport
              (fun _ => isCanceled (setTotal (markRunning s jid) jid recipients.length) jid)
              recipients).events) jid with
        | none =>
          rw [hg] at h3
          cases h3
        | some j3 =>
          rw [hg] at h3
          have hje : j3.error = j0.error := congrArg (fun p => p.2) (Option.some.inj h3)
          show some ((markDoneJob _ j3).state, (markDoneJob _ j3).error) = _
          rw [show (markDoneJob (some (sendResponseTop _)) j3).state = JobState.done from rfl,
            show (markDoneJob (some (sendResponseTop _)) j3).error = j3.error from rfl, hje]
  · intro m transport cancel recipients
    rfl

/-- A closed instance of `job_runner_terminal_c3`: a successful run also ends
in state `done` with the error field untouched. -/
theorem job_runner_terminal_c3_witness :
    (storeGet
        (runEmailJob [(str "j2", newJob)] (str "j2") none (fun _ _ => ApiSendOutcome.ok)
          [str "b@x.com"])
        (str "j2")).map (fun j => (j.state, j.error)) = some (JobState.done, newJob.error) :=
  job_runner_terminal_c3.1 [(str "j2", newJob)] (str "j2") none (fun _ _ => ApiSendOutcome.ok)
    [str "b@x.com"] newJob rfl

/-! ## The sequential mass loop of EmailSendService (C1, C4, C6) -/

lemma sendEmailAux_recipient (behavior : Nat → SmtpAttempt) (r : Str) :
    ∀ (rem attempt : Nat) (le : Option Str) (sl : List Nat),
      (sendEmailAux behavior r attempt rem le sl).result.recipient = r := by
  intro rem
  induction rem with
  | zero => intro attempt le sl; rfl
  | succ n ih =>
    intro attempt le sl
    cases hb : behavior (attempt + 1) with
    | ok => simp only [sendEmailAux, hb]
    | disconnected =>
      simp only [sendEmailAux, hb]
      exact ih _ _ _
    | smtpExc msg =>
      simp only [sendEmailAux, hb]
      split
      · split
        · exact ih _ _ _
        · rfl
      · split
        · rfl
        · split
          · exact ih _ _ _
          · rfl
    | otherExc msg =>
      simp only [sendEmailAux, hb]
      exact ih _ _ _

lemma sendEmail_recipient (behavior : Nat → SmtpAttempt) (r : Str) :
    (sendEmail behavior r).result.recipient = r :=
  sendEmailAux_recipient behavior r MAX_RETRIES 0 none []

lemma sendEmailAux_attempts_le (behavior : Nat → SmtpAttempt) (r : Str) :
    ∀ (rem attempt : Nat) (le : Option Str) (sl : List Nat),
      (sendEmailAux behavior r attempt rem le sl).result.attempts ≤ attempt + rem := by
  intro rem
  induction rem with
  | zero => intro attempt le sl; exact Nat.le_refl _
  | succ n ih =>
    intro attempt le sl
    cases hb : behavior (attempt + 1) with
    | ok =>
      simp only [sendEmailAux, hb]
      omega
    | disconnected =>
      simp only [sendEmailAux, hb]
      refine Nat.le_trans (ih _ _ _) ?_
      omega
    | smtpExc msg =>
      simp only [sendEmailAux, hb]
      split
      · split
        · refine Nat.le_trans (ih _ _ _) ?_
          omega
        · show attempt + 1 ≤ attempt + (n + 1)
          omega
      · split
        · show attempt + 1 ≤ attempt + (n + 1)
          omega
        · split
          · refine Nat.le_trans (ih _ _ _) ?_
            omega
          · show attempt + 1 ≤ attempt + (n + 1)
            omega
    | otherExc msg =>
      simp only [sendEmailAux, hb]
      refine Nat.le_trans (ih _ _ _) ?_
      omega

/-- The per-recipient result dicts the loop would collect, in row order. -/
def recipOutcomes (transport : Nat → Nat → SmtpAttempt) : List Str → Nat → List SendAttemptResult
  | [], _ => []
  | r :: rest, cur => (sendEmail (transport cur) r).result :: recipOutcomes transport rest (cur + 1)

lemma recipOutcomes_map_recipient (transport : Nat → Nat → SmtpAttempt) :
    ∀ (pending : List Str) (cur : Nat),
      (recipOutcomes transport pending cur).map SendAttemptResult.recipient = pending := by
  intro pending
  induction pending with
  | nil => intro cur; rfl
  | cons r rest ih =>
    intro cur
    show (sendEmail (transport cur) r).result.recipient
        :: (recipOutcomes transport rest (cur + 1)).map SendAttemptResult.recipient = r :: rest
    rw [sendEmail_recipient, ih]

lemma recipOutcomes_length (transport : Nat → Nat → SmtpAttempt) (pending : List Str) (cur : Nat) :
    (recipOutcomes transport pending cur).length = pending.length := by
  have h := congrArg List.length (recipOutcomes_map_recipient transport pending cur)
  simpa using h

lemma massLoop_all (transport : Nat → Nat → SmtpAttempt) (total : Nat) :
    ∀ (pending : List Str) (cur sc fc : Nat) (rs : List SendAttemptResult),
      massLoop transport (fun _ => false) total pending cur sc fc rs =
        ⟨total,
         sc + (recipOutcomes transport pending cur).countP (fun t => t.success),
         fc + (pending.length - (recipOutcomes transport pending cur).countP (fun t => t.success)),
         false, rs ++ recipOutcomes transport pending cur, none⟩ := by
  intro pending
  induction pending with
  | nil =>
    intro cur sc fc rs
    show (⟨total, sc, fc, false, rs, none⟩ : MassResult) = _
    simp [recipOutcomes]
  | cons r rest ih =>
    intro cur sc fc rs
    have hcons : massLoop transport (fun _ => false) total (r :: rest) cur sc fc rs =
        (if (sendEmail (transport cur) r).result.success then
          massLoop transport (fun _ => false) total rest (cur + 1) (sc + 1) fc
            (rs ++ [(sendEmail (transport cur) r).result])
        else
          massLoop transport (fun _ => false) total rest (cur + 1) sc (fc + 1)
            (rs ++ [(sendEmail (transport cur) r).result])) := rfl
    rw [hcons]
    have hle := List.countP_le_length (p := fun t : SendAttemptResult => t.success)
      (l := recipOutcomes transport rest (cur + 1))
    have hlen := recipOutcomes_length transport rest (cur + 1)
    have hro : recipOutcomes transport (r :: rest) cur =
        (sendEmail (transport cur) r).result :: recipOutcomes transport rest (cur + 1) := rfl
    by_cases h : (sendEmail (transport cur) r).result.success = true
    · have hrc : (recipOutcomes transport (r :: rest) cur).countP (fun t => t.success) =
          (recipOutcomes transport rest (cur + 1)).countP (fun t => t.success) + 1 := by
        simp [hro, List.countP_cons, h]
      rw [if_pos h, ih, hrc, hro, List.length_cons, MassResult.mk.injEq]
      refine ⟨rfl, by omega, by omega, rfl, by simp, rfl⟩
    · have hf : (sendEmail (transport cur) r).result.success = false := by
        cases hb : (sendEmail (transport cur) r).result.success
        · rfl
        · exact absurd hb h
      have hrc : (recipOutcomes transport (r :: rest) cur).countP (fun t => t.success) =
          (recipOutcomes transport rest (cur + 1)).countP (fun t => t.success) := by
        simp [hro, List.countP_cons, hf]
      rw [if_neg h, ih, hrc, hro, List.length_cons, MassResult.mk.injEq]
      refine ⟨rfl, by omega, by omega, rfl, by simp, rfl⟩


lemma countP_not_success :
    ∀ l : List SendAttemptResult,
      l.countP (fun t => !t.success) = l.length - l.countP (fun t => t.success) := by
  intro l
  induction l with
  | nil => rfl
  | cons a t ih =>
    have hle := List.countP_le_length (p := fun t : SendAttemptResult => t.success) (l := t)
    rw [List.countP_cons, List.countP_cons, List.length_cons, ih]
    cases hb : a.success
    all_goals simp [hb]
    all_goals omega

lemma massLoop_cancelK (transport : Nat → Nat → SmtpAttempt) (total k : Nat) :
    ∀ (pending : List Str) (cur sc fc : Nat) (rs : List SendAttemptResult),
      k + 1 < cur + pending.length → cur ≤ k + 1 →
      massLoop transport (fun i => decide (k < i)) total pending cur sc fc rs =
        ⟨total,
         sc + (recipOutcomes transport (pending.take (k + 1 - cur)) cur).countP (fun t => t.success),
         fc + ((k + 1 - cur) -
           (recipOutcomes transport (pending.take (k + 1 - cur)) cur).countP (fun t => t.success)),
         true, rs ++ recipOutcomes transport (pending.take (k + 1 - cur)) cur, none⟩ := by
  intro pending
  induction pending with
  | nil =>
    intro cur sc fc rs h1 h2
    exact absurd h1 (by simp only [List.length_nil]; omega)
  | cons r rest ih =>
    intro cur sc fc rs h1 h2
    have hcons : massLoop transport (fun i => decide (k < i)) total (r :: rest) cur sc fc rs =
        (if decide (k < cur) = true then (⟨total, sc, fc, true, rs, none⟩ : MassResult)
         else if (sendEmail (transport cur) r).result.success then
           massLoop transport (fun i => decide (k < i)) total rest (cur + 1) (sc + 1) fc
             (rs ++ [(sendEmail (transport cur) r).result])
         else
           massLoop transport (fun i => decide (k < i)) total rest (cur + 1) sc (fc + 1)
             (rs ++ [(sendEmail (transport cur) r).result])) := rfl
    by_cases hc : cur = k + 1
    · have hlt : k < cur := by omega
      have htz : k + 1 - cur = 0 := by omega
      rw [hcons, if_pos (decide_eq_true hlt), htz]
      simp [recipOutcomes]
    · have hd : decide (k < cur) = false := decide_eq_false (by omega)
      have hnd : ¬ (decide (k < cur) = true) := by
        rw [hd]
        exact Bool.false_ne_true
      have htake : (r :: rest).take (k + 1 - cur) = r :: rest.take (k + 1 - (cur + 1)) := by
        have hsplit : k + 1 - cur = (k + 1 - (cur + 1)) + 1 := by omega
        rw [hsplit, List.take_succ_cons]
      have hro : recipOutcomes transport (r :: rest.take (k + 1 - (cur + 1))) cur =
          (sendEmail (transport cur) r).result
            :: recipOutcomes transport (rest.take (k + 1 - (cur + 1))) (cur + 1) := rfl
      have h1n : k + 1 < (cur + 1) + rest.length := by
        have hlc : (r :: rest).length = rest.length + 1 := rfl
        omega
      have h2n : cur + 1 ≤ k + 1 := by omega
      have hle := List.countP_le_length (p := fun t : SendAttemptResult => t.success)
        (l := recipOutcomes transport (rest.take (k + 1 - (cur + 1))) (cur + 1))
      have hlen := recipOutcomes_length transport (rest.take (k + 1 - (cur + 1))) (cur + 1)
      have hlt2 : (rest.take (k + 1 - (cur + 1))).length ≤ k + 1 - (cur + 1) := by
        rw [List.length_take]
        omega
      by_cases hs : (sendEmail (transport cur) r).result.success = true
      · have hrc : (recipOutcomes transport ((r :: rest).take (k + 1 - cur)) cur).countP
            (fun t => t.success) =
            (recipOutcomes transport (rest.take (k + 1 - (cur + 1))) (cur + 1)).countP
              (fun t => t.success) + 1 := by
          rw [htake, hro, List.countP_cons, hs]
          simp
        rw [hcons, if_neg hnd, if_pos hs, ih (cur + 1) (sc + 1) fc
          (rs ++ [(sendEmail (transport cur) r).result]) h1n h2n, hrc, htake, hro,
          MassResult.mk.injEq]
        refine ⟨rfl, by omega, by omega, rfl, by simp, rfl⟩
      · have hf : (sendEmail (transport cur) r).result.success = false := by
          cases hb : (sendEmail (transport cur) r).result.success
          · rfl
          · exact absurd hb hs
        have hrc : (recipOutcomes transport ((r :: rest).take (k + 1 - cur)) cur).countP
            (fun t => t.success) =
            (recipOutcomes transport (rest.take (k + 1 - (cur + 1))) (cur + 1)).countP
              (fun t => t.success) := by
          rw [htake, hro, List.countP_cons, hf]
          simp
        rw [hcons, if_neg hnd, if_neg hs, ih (cur + 1) sc (fc + 1)
          (rs ++ [(sendEmail (transport cur) r).result]) h1n h2n, hrc, htake, hro,
          MassResult.mk.injEq]
        refine ⟨rfl, by omega, by omega, rfl, by simp, rfl⟩

/-- Two demo recipients for closed counterexamples. -/
def recipsAB : List Str := [str "a@x.com", str "b@x.com"]

/-- C1 counterexample — in `EmailService.send_mass_emails` (api), a
non-rate-limit, non-quota transport failure on the *first* recipient is
recorded as that recipient's failure (a `failed` progress event is emitted)
but the loop then raises instead of continuing: no counts dict is returned
(the run ends in an escaping exception) and the second recipient's send is
never attempted — refuting `success + failed == N` / "the loop continues to
the remaining recipients" for this implementation. -/
theorem per_recipient_failure_aborts_c1 :
    (apiSendMassEmails (fun _ _ => ApiSendOutcome.exc (str "boom")) (fun _ => false)
        recipsAB).result =
      .error (otherBatchMsg (str "a@x.com") (str "An error occurred: boom"))
    ∧ (apiSendMassEmails (fun _ _ => ApiSendOutcome.exc (str "boom")) (fun _ => false)
        recipsAB).events =
      [⟨1, str "a@x.com", str "failed", some (str "An error occurred: boom")⟩]
    ∧ (apiSendMassEmails (fun _ _ => ApiSendOutcome.exc (str "boom")) (fun _ => false)
        recipsAB).attempted = [(str "a@x.com", 1)] :=
  ⟨rfl, rfl, rfl⟩

/-- C1 (amended) — For `EmailSendService.send_mass_emails` (apps/emails) the
claim holds as stated: with a working initial connection, no cancellation and
any per-attempt transport behavior, the loop returns a result with
`total = N`, `success + failed = N`, one recorded outcome per recipient in
row order, and `failed` counting exactly the unsuccessful recipients — a
non-rate-limit, non-quota failure is that recipient's failure and the loop
continues.  In `EmailService.send_mass_emails` (api) such a failure instead
aborts the batch after being counted (see the counterexample). -/
theorem mass_send_counts_c1 (transport : Nat → Nat → SmtpAttempt) (recipients : List Str)
    (hne : recipients ≠ []) :
    sendMassEmails none transport (fun _ => false) recipients =
      .ok (massLoop transport (fun _ => false) recipients.length recipients 1 0 0 [])
    ∧ (massLoop transport (fun _ => false) recipients.length recipients 1 0 0 []).total =
        recipients.length
    ∧ (massLoop transport (fun _ => false) recipients.length recipients 1 0 0 []).success +
        (massLoop transport (fun _ => false) recipients.length recipients 1 0 0 []).failed =
        recipients.length
    ∧ (massLoop transport (fun _ => false) recipients.length recipients 1 0 0 []).canceled = false
    ∧ (massLoop transport (fun _ => false) recipients.length recipients 1 0 0 []).results.map
        SendAttemptResult.recipient = recipients
    ∧ (massLoop transport (fun _ => false) recipients.length recipients 1 0 0 []).failed =
        (massLoop transport (fun _ => false) recipients.length recipients 1 0 0 []).results.countP
          (fun t => !t.success) := by
  have hml := massLoop_all transport recipients.length recipients 1 0 0 []
  have hle := List.countP_le_length (p := fun t : SendAttemptResult => t.success)
    (l := recipOutcomes transport recipients 1)
  have hlen := recipOutcomes_length transport recipients 1
  refine ⟨?_, ?_, ?_, ?_, ?_, ?_⟩
  · show (if recipients = [] then Except.error (str "Lista de destinatários vazia") else _) = _
    rw [if_neg hne]
  · rw [hml]
  · rw [hml]
    show 0 + _ + (0 + _) = _
    omega
  · rw [hml]
  · rw [hml]
    show ([] ++ recipOutcomes transport recipients 1).map SendAttemptResult.recipient = _
    rw [List.nil_append, recipOutcomes_map_recipient]
  · rw [hml]
    show 0 + _ =
      ([] ++ recipOutcomes transport recipients 1).countP
        (fun t : SendAttemptResult => !t.success)
    rw [List.nil_append, countP_not_success]
    omega

/-- A closed instance of `mass_send_counts_c1`: a two-recipient batch where
the first recipient's sends always fail with a generic SMTP error and the
second succeeds. -/
theorem mass_send_counts_c1_witness :
    sendMassEmails none
        (fun i _ => if i = 1 then SmtpAttempt.smtpExc (str "550 mailbox unavailable")
          else SmtpAttempt.ok)
        (fun _ => false) recipsAB =
      .ok (massLoop
        (fun i _ => if i = 1 then SmtpAttempt.smtpExc (str "550 mailbox unavailable")
          else SmtpAttempt.ok)
        (fun _ => false) recipsAB.length recipsAB 1 0 0 [])
    ∧ (massLoop
        (fun i _ => if i = 1 then SmtpAttempt.smtpExc (str "550 mailbox unavailable")
          else SmtpAttempt.ok)
        (fun _ => false) recipsAB.length recipsAB 1 0 0 []).success +
      (massLoop
        (fun i _ => if i = 1 then SmtpAttempt.smtpExc (str "550 mailbox unavailable")
          else SmtpAttempt.ok)
        (fun _ => false) recipsAB.length recipsAB 1 0 0 []).failed = recipsAB.length :=
  ⟨(mass_send_counts_c1 _ recipsAB (by decide)).1,
   (mass_send_counts_c1 _ recipsAB (by decide)).2.2.1⟩

/-- C6 — Cancellation is checked before each recipient's send: with the
cancel flag turning true after recipient `k` (of `N > k`), the apps mass loop
stops at recipient `k + 1`, returns `canceled = true`, `total = N`, counts
accumulated over exactly the first `k` recipients (`success + failed = k`),
and records outcomes for exactly `recipients.take k` — recipients `k+1..N`
are never attempted.  The api loop places its cancel check identically
(before the retry loop of each recipient). -/
theorem cancel_checked_before_send_c6 (transport : Nat → Nat → SmtpAttempt)
    (recipients : List Str) (k : Nat) (hk : k < recipients.length) :
    sendMassEmails none transport (fun i => decide (k < i)) recipients =
      .ok (massLoop transport (fun i => decide (k < i)) recipients.length recipients 1 0 0 [])
    ∧ (massLoop transport (fun i => decide (k < i)) recipients.length recipients 1 0 0 []).canceled
        = true
    ∧ (massLoop transport (fun i => decide (k < i)) recipients.length recipients 1 0 0 []).total =
        recipients.length
    ∧ (massLoop transport (fun i => decide (k < i)) recipients.length recipients 1 0 0 []).success +
        (massLoop transport (fun i => decide (k < i)) recipients.length recipients 1 0 0 []).failed
        = k
    ∧ (massLoop transport (fun i => decide (k < i)) recipients.length recipients
        1 0 0 []).results.length = k
    ∧ (massLoop transport (fun i => decide (k < i)) recipients.length recipients
        1 0 0 []).results.map SendAttemptResult.recipient = recipients.take k := by
  have hne : recipients ≠ [] := by
    intro h
    rw [h] at hk
    simp at hk
  have h1 : k + 1 < 1 + recipients.length := by omega
  have h2 : (1 : Nat) ≤ k + 1 := by omega
  have hml := massLoop_cancelK transport recipients.length k recipients 1 0 0 [] h1 h2
  have hk1 : k + 1 - 1 = k := by omega
  rw [hk1] at hml
  have hle := List.countP_le_length (p := fun t : SendAttemptResult => t.success)
    (l := recipOutcomes transport (recipients.take k) 1)
  have hlen := recipOutcomes_length transport (recipients.take k) 1
  have hlt : (recipients.take k).length = k := by
    rw [List.length_take]
    omega
  refine ⟨?_, ?_, ?_, ?_, ?_, ?_⟩
  · show (if recipients = [] then Except.error (str "Lista de destinatários vazia") else _) = _
    rw [if_neg hne]
  · rw [hml]
  · rw [hml]
  · rw [hml]
    show 0 + _ + (0 + _) = _
    omega
  · rw [hml]
    show ([] ++ recipOutcomes transport (recipients.take k) 1).length = k
    rw [List.nil_append]
    omega
  · rw [hml]
    show ([] ++ recipOutcomes transport (recipients.take k) 1).map SendAttemptResult.recipient = _
    rw [List.nil_append, recipOutcomes_map_recipient]

/-- A closed instance of `cancel_checked_before_send_c6`: canceling after the
first of two recipients. -/
theorem cancel_checked_before_send_c6_witness :
    (massLoop (fun _ _ => SmtpAttempt.ok) (fun i => decide (1 < i)) recipsAB.length recipsAB
        1 0 0 []).success +
      (massLoop (fun _ _ => SmtpAttempt.ok) (fun i => decide (1 < i)) recipsAB.length recipsAB
        1 0 0 []).failed = 1
    ∧ (massLoop (fun _ _ => SmtpAttempt.ok) (fun i => decide (1 < i)) recipsAB.length recipsAB
        1 0 0 []).results.map SendAttemptResult.recipient = recipsAB.take 1 :=
  ⟨(cancel_checked_before_send_c6 (fun _ _ => SmtpAttempt.ok) recipsAB 1 (by decide)).2.2.2.1,
   (cancel_checked_before_send_c6 (fun _ _ => SmtpAttempt.ok) recipsAB 1 (by decide)).2.2.2.2.2⟩

/-! ## C4: the retry budget and backoff of the delivery engine -/

/-- C4 counterexample — a transport disconnection is a non-rate-limit
retryable failure, yet every retry sleeps a constant 5 seconds
(`[5, 5, 5, 5]`, not an increasing capped backoff), refuting "a
non-rate-limit retryable failure uses an increasing (linear, capped) backoff
between attempts" as a statement about every retryable failure. -/
theorem fixed_backoff_on_disconnect_c4 :
    (sendEmail (fun _ => SmtpAttempt.disconnected) (str "a@x.com")).sleeps = [5, 5, 5, 5]
    ∧ (sendEmail (fun _ => SmtpAttempt.disconnected) (str "a@x.com")).result.success = false
    ∧ (sendEmail (fun _ => SmtpAttempt.disconnected) (str "a@x.com")).result.attempts = 5 := by
  decide

/-- C4 (amended) — Delivery is attempted at most 5 times; a recoverable
rate-limit signature sleeps the 100s backoff and is retried within the
budget; a non-rate-limit, non-quota *SMTP error* uses the increasing linear
capped backoff `min(5·attempt, 30)` between attempts (disconnections and
unexpected exceptions instead sleep a fixed 5s — see the counterexample);
and a recipient whose budget is exhausted yields a structured failure counted
against that recipient while the batch continues to the next recipient. -/
theorem retry_budget_c4 :
    (∀ (behavior : Nat → SmtpAttempt) (r : Str),
        (sendEmail behavior r).result.attempts ≤ 5)
    ∧ (∀ (behavior : Nat → SmtpAttempt) (r msg : Str),
        behavior 1 = .smtpExc msg → detectRateLimit msg = true → behavior 2 = .ok →
        sendEmail behavior r = ⟨⟨r, true, 2, none⟩, [100]⟩)
    ∧ (∀ (behavior : Nat → SmtpAttempt) (r : Str) (msgs : Nat → Str),
        (∀ a, 1 ≤ a → a ≤ 5 → behavior a = .smtpExc (msgs a)) →
        (∀ a, 1 ≤ a → a ≤ 5 → detectRateLimit (msgs a) = false) →
        (∀ a, 1 ≤ a → a ≤ 5 → detectDailyLimit (msgs a) = false) →
        sendEmail behavior r =
          ⟨⟨r, false, 5, some (str "Falha após 5 tentativas: " ++ msgs 5)⟩, [5, 10, 15, 20]⟩)
    ∧ (∀ (transport : Nat → Nat → SmtpAttempt) (r1 r2 : Str),
        (sendEmail (transport 1) r1).result.success = false →
        (sendEmail (transport 2) r2).result.success = true →
        massLoop transport (fun _ => false) 2 [r1, r2] 1 0 0 [] =
          ⟨2, 1, 1, false,
           [(sendEmail (transport 1) r1).result, (sendEmail (transport 2) r2).result], none⟩) := by
  refine ⟨?_, ?_, ?_, ?_⟩
  · intro behavior r
    exact sendEmailAux_attempts_le behavior r MAX_RETRIES 0 none []
  · intro behavior r msg h1 h2 h3
    show sendEmailAux behavior r 0 MAX_RETRIES none [] = _
    simp [sendEmailAux, MAX_RETRIES, RETRY_DELAY, h1, h2, h3]
  · intro behavior r msgs hB hR hD
    have b1 := hB 1 (by omega) (by omega)
    have b2 := hB 2 (by omega) (by omega)
    have b3 := hB 3 (by omega) (by omega)
    have b4 := hB 4 (by omega) (by omega)
    have b5 := hB 5 (by omega) (by omega)
    have r1 := hR 1 (by omega) (by omega)
    have r2 := hR 2 (by omega) (by omega)
    have r3 := hR 3 (by omega) (by omega)
    have r4 := hR 4 (by omega) (by omega)
    have r5 := hR 5 (by omega) (by omega)
    have d1 := hD 1 (by omega) (by omega)
    have d2 := hD 2 (by omega) (by omega)
    have d3 := hD 3 (by omega) (by omega)
    have d4 := hD 4 (by omega) (by omega)
    have d5 := hD 5 (by omega) (by omega)
    show sendEmailAux behavior r 0 MAX_RETRIES none [] = _
    simp [sendEmailAux, MAX_RETRIES, b1, b2, b3, b4, b5, r1, r2, r3, r4, r5,
      d1, d2, d3, d4, d5]
  · intro transport r1 r2 hf ht
    have hml := massLoop_all transport 2 [r1, r2] 1 0 0 []
    rw [hml]
    have hro : recipOutcomes transport [r1, r2] 1 =
        [(sendEmail (transport 1) r1).result, (sendEmail (transport 2) r2).result] := rfl
    rw [hro]
    simp [List.countP_cons, hf, ht]

/-- A closed instance of `retry_budget_c4`: a rate-limited first attempt is
retried after the 100s backoff and succeeds on the second attempt. -/
theorem retry_budget_c4_witness :
    (sendEmail (fun a => if a = 1 then SmtpAttempt.smtpExc (str "452 4.2.1 limit")
        else SmtpAttempt.ok) (str "a@x.com")).result.attempts ≤ 5
    ∧ sendEmail (fun a => if a = 1 then SmtpAttempt.smtpExc (str "452 4.2.1 limit")
        else SmtpAttempt.ok) (str "a@x.com") =
      ⟨⟨str "a@x.com", true, 2, none⟩, [100]⟩ :=
  ⟨retry_budget_c4.1 _ (str "a@x.com"),
   retry_budget_c4.2.1
     (fun a => if a = 1 then SmtpAttempt.smtpExc (str "452 4.2.1 limit") else SmtpAttempt.ok)
     (str "a@x.com") (str "452 4.2.1 limit") (by decide) (by decide) (by decide)⟩

/-! ## C2: the hard daily-quota signature -/

/-- The transport of the C2 counterexample: recipient 1 delivers, recipient 2
always hits the provider's daily-quota signature. -/
def quotaTransport : Nat → Nat → ApiSendOutcome :=
  fun i _ =>
    if i = 1 then ApiSendOutcome.ok
    else ApiSendOutcome.exc (str "552-5.4.5 daily user sending limit exceeded")

/-- C2 counterexample — with two recipients where the first send succeeds and
the second hits the `5.4.5` quota signature, the batch aborts immediately,
but the already-processed counts are *not* preserved in the result: the abort
escapes as an exception (no counts dict is returned), and `EmailService.send`
reports a summary of `success = 0, failed = 2` even though the progress
events show one success — refuting "the counts for recipients already
processed before the abort are preserved and returned in the result". -/
theorem quota_counts_lost_c2 :
    (apiSendMassEmails quotaTransport (fun _ => false) recipsAB).events =
      [⟨1, str "a@x.com", str "success", none⟩]
    ∧ (apiSendMassEmails quotaTransport (fun _ => false) recipsAB).result =
        .error (dailyBatchMsg (str "b@x.com"))
    ∧ emailServiceSend none quotaTransport (fun _ => false) recipsAB =
        ⟨str "error", some (str "Erro ao enviar: " ++ dailyBatchMsg (str "b@x.com")), 2, 0, 2⟩ :=
  ⟨rfl, rfl, rfl⟩

/-- C2 (amended) — A send whose exception message contains the fixed
daily-quota code substring (and not the rate-limit one) aborts immediately:
the recipient's retry loop ends at that very attempt without consuming
further retries, the batch loop re-raises at once — no further recipient is
attempted and no progress event is emitted for the aborting recipient — and
the escaping exception makes `EmailService.send` return an error response
whose summary discards the accumulated counts (`success = 0`,
`failed = total`). -/
theorem quota_abort_c2 :
    (∀ (behavior : Nat → ApiSendOutcome) (msg : Str),
        behavior 1 = .exc msg → strContains (str "4.2.1") msg = false →
        strContains (str "5.4.5") msg = true →
        apiTryRecipient behavior = .abortDaily 1)
    ∧ (∀ (transport : Nat → Nat → ApiSendOutcome) (cancel : Nat → Bool) (total : Nat)
        (r : Str) (rest : List Str) (i sc fc : Nat) (evs : List ProgressEvent)
        (att : List (Str × Nat)) (a : Nat),
        cancel i = false → apiTryRecipient (transport i) = .abortDaily a →
        apiMassLoop transport cancel total (r :: rest) i sc fc evs att =
          ⟨.error (dailyBatchMsg r), evs, att ++ [(r, a)]⟩)
    ∧ (∀ (transport : Nat → Nat → ApiSendOutcome) (cancel : Nat → Bool)
        (recipients : List Str) (m : Str),
        (apiSendMassEmails transport cancel recipients).result = .error m →
        emailServiceSend none transport cancel recipients =
          ⟨str "error", some (str "Erro ao enviar: " ++ m), recipients.length, 0,
            recipients.length⟩) := by
  refine ⟨?_, ?_, ?_⟩
  · intro behavior msg h1 h2 h3
    show apiTryAux behavior 0 5 = _
    simp [apiTryAux, h1, h2, h3]
  · intro transport cancel total r rest i sc fc evs att a hc hd
    simp [apiMassLoop, hc, hd]
  · intro transport cancel recipients m h
    cases hr : recipients with
    | nil =>
      rw [hr] at h
      exact absurd h (by simp [apiSendMassEmails, apiMassLoop])
    | cons r rest =>
      subst hr
      show emailServiceSend none transport cancel (r :: rest) = _
      unfold emailServiceSend
      rw [if_neg (List.cons_ne_nil r rest), h]

/-- A closed instance of `quota_abort_c2`: the quota signature at the first
recipient's first attempt aborts with one attempt consumed and no event. -/
theorem quota_abort_c2_witness :
    apiTryRecipient (fun _ => ApiSendOutcome.exc (str "552-5.4.5 quota")) =
      RecipOutcome.abortDaily 1
    ∧ apiMassLoop (fun _ _ => ApiSendOutcome.exc (str "552-5.4.5 quota")) (fun _ => false) 2
        (str "a@x.com" :: [str "b@x.com"]) 1 0 0 [] [] =
      ⟨.error (dailyBatchMsg (str "a@x.com")), [], [] ++ [(str "a@x.com", 1)]⟩ :=
  ⟨quota_abort_c2.1 (fun _ => ApiSendOutcome.exc (str "552-5.4.5 quota"))
      (str "552-5.4.5 quota") rfl (by decide) (by decide),
   quota_abort_c2.2.1 (fun _ _ => ApiSendOutcome.exc (str "552-5.4.5 quota")) (fun _ => false) 2
      (str "a@x.com") [str "b@x.com"] 1 0 0 [] [] 1 rfl (by decide)⟩
